import Mathlib

/-!
Verification of the sonar_scanner_runner backend: a shallow embedding of the
scan-job lifecycle in `backend/server.py` and of the scan pipeline in
`backend/scripts/run_sonar_scan.py`, together with proofs settling the
specification's claims about them.

Python strings are modelled as `String`/`List Char`; Python lists as Lean
lists; the mutable `active_scans` dict as an association list; the in-place
mutable output list of each job as a cell in an explicit heap, so that the
shallow `dict.copy()` snapshot semantics (scalar fields copied, list object
shared) is captured faithfully.  Machine timestamps are `Nat` (whole seconds,
as produced by `int(time.time())`); process exit codes are `Int`.
-/

/-! ## Char-level models of the Python string operations used by the code -/

/-- Fuel-driven worker for `pyReplaceGit`.  Mirrors the Python string
replace of the pattern `.git` by the empty string: scan left to right;
whenever the next four characters are `.git` drop them and continue after
the match, otherwise emit one character.  The fuel argument only makes the
recursion structural; it is called with fuel = length of the list, which
always suffices. -/
def pyReplaceGitAux : Nat → List Char → List Char
  | _, [] => []
  | 0, rest => rest
  | fuel + 1, c :: rest =>
    if c = '.' ∧ rest.take 3 = ['g', 'i', 't'] then pyReplaceGitAux fuel (rest.drop 3)
    else c :: pyReplaceGitAux fuel rest

/-- The Python replace removing every occurrence of `.git`, on a character list. -/
def pyReplaceGit (l : List Char) : List Char := pyReplaceGitAux l.length l

/-- The Python split on the slash separator, on a character list: segments
between separators, keeping empty segments, never returning an empty list. -/
def pySplitSlash : List Char → List (List Char)
  | [] => [[]]
  | c :: rest =>
    if c = '/' then [] :: pySplitSlash rest
    else
      match pySplitSlash rest with
      | [] => [[c]]
      | seg :: segs => (c :: seg) :: segs

/-! ## Model of `backend/scripts/run_sonar_scan.py` -/

/-- The runner's configuration (`SonarScanRunner._load_config`), after merging
defaults with any user config.  `build_prerequisites` is the JSON dict of
prerequisite command lists, modelled as an association list. -/
structure RunnerConfig where
  sonar_host_url : String
  sonar_token : String
  workspace_dir : String
  build_wrapper_cmd : String
  sonar_scanner_cmd : String
  build_prerequisites : List (String × List String)
deriving DecidableEq

/-- Python `d.get(key, [])` on the prerequisites dict. -/
def dictGetL (d : List (String × List String)) (key : String) : List String :=
  match d.find? (fun p => p.1 == key) with
  | some p => p.2
  | none => []

/-- The external environment one scan runs against: which executables
`shutil.which` resolves, the clone's exit code, the marker files present at
the workspace root after cloning, and the exit codes of the instrumented
build and of the analysis scanner. -/
structure ToolEnv where
  available : List String
  clone_rc : Int
  workspace_files : List String
  build_rc : Int
  scanner_rc : Int
deriving DecidableEq

/-- `SonarScanRunner.check_prerequisites`: resolve `git`, the configured
scanner command and the configured build-wrapper command on the search path;
succeed exactly when the list of missing tools is empty. -/
def check_prerequisites (cfg : RunnerConfig) (env : ToolEnv) : Bool :=
  let tools := ["git", cfg.sonar_scanner_cmd, cfg.build_wrapper_cmd]
  let missing_tools := tools.filter (fun cmd => !(env.available.contains cmd))
  missing_tools.isEmpty

/-- `SonarScanRunner.clone_repository`: succeeds iff the clone command
exits with code 0. -/
def clone_repository (env : ToolEnv) : Bool :=
  if env.clone_rc = 0 then true else false

/-- The `build_files` dict of `SonarScanRunner.detect_build_system`, in its
insertion order (Python dicts iterate in insertion order): marker file,
build-system kind, default build command. -/
def build_files : List (String × String × String) :=
  [("pom.xml", "maven", "mvn clean install"),
   ("build.gradle", "gradle", "./gradlew build"),
   ("build.gradle.kts", "gradle", "./gradlew build"),
   ("CMakeLists.txt", "cmake", "cmake . && make"),
   ("Makefile", "make", "make"),
   ("package.json", "npm", "npm install && npm run build"),
   ("setup.py", "python", "python setup.py build")]

/-- `SonarScanRunner.detect_build_system`: return kind and default command of
the first marker file of `build_files` present at the workspace root, `none`
("will skip build step") when no marker is present. -/
def detect_build_system (workspace_files : List String) : Option (String × String) :=
  build_files.findSome? (fun e => if e.1 ∈ workspace_files then some e.2 else none)

/-- The prerequisite command list assembled in
`SonarScanRunner.build_with_wrapper` (and displayed by
`show_prerequisites`): the dict's `global` commands followed by the
detected build system's commands, or just the `global` ones when no build
system was detected. -/
def resolved_prerequisites (cfg : RunnerConfig) (build_system : Option String) : List String :=
  let global_prereqs := dictGetL cfg.build_prerequisites "global"
  let system_prereqs :=
    match build_system with
    | some bs => dictGetL cfg.build_prerequisites bs
    | none => []
  global_prereqs ++ system_prereqs

/-- `SonarScanRunner.show_prerequisites`: only prints the resolved list and
always reports success. -/
def show_prerequisites (_cfg : RunnerConfig) (_build_system : Option String) : Bool :=
  true

/-- `SonarScanRunner.build_with_wrapper`: with no build command the build is
skipped; otherwise the prerequisite chain and the wrapped build command run,
and a non-zero exit code of the chain (`env.build_rc`) is only warned about —
the method returns `True` in every case. -/
def build_with_wrapper (_cfg : RunnerConfig) (_env : ToolEnv)
    (build_command : Option String) (_build_system : Option String) : Bool :=
  match build_command with
  | none => true
  | some _cmd => true

/-- `SonarScanRunner.run_sonar_scanner`: succeeds iff the scanner command
exits with code 0. -/
def run_sonar_scanner (env : ToolEnv) : Bool :=
  if env.scanner_rc = 0 then true else false

/-- Python `[-1]` indexing on the (always non-empty) result of a split:
the last segment. -/
def lastSeg : List (List Char) → List Char
  | [] => []
  | [s] => s
  | _ :: s :: rest => lastSeg (s :: rest)

/-- The project key / project name passed to the scanner in
`run_sonar_scanner` (lines 224-225): split the repository name on slash,
take the last segment, and remove every occurrence of `.git` from it. -/
def sonar_project_key (repo_name : String) : String :=
  List.asString (pyReplaceGit (lastSeg (pySplitSlash repo_name.data)))

/-- Base name with only a trailing `.git` suffix stripped — the project
identity as the specification words it ("the repository's base name with
version-control suffix stripped" from its end, other segments passed
through unchanged).  Stated for comparison with `sonar_project_key`. -/
def spec_project_key (repo_name : String) : String :=
  let base := lastSeg (pySplitSlash repo_name.data)
  List.asString
    (if base.reverse.take 4 = ['t', 'i', 'g', '.'] then (base.reverse.drop 4).reverse else base)

/-- The stages of `SonarScanRunner.run`, in source order. -/
inductive Stage where
  | checkTools
  | cloneRepo
  | detectStage
  | showPrereqs
  | buildWrapper
  | scannerStage
  | cleanup
deriving DecidableEq

/-- `SonarScanRunner.run`: the main execution flow.  Returns the script's
exit code together with the list of stages that were executed (cleanup runs
in a `finally` block, hence always).  Each stage is gated exactly as in the
source: a failed tool check or clone aborts with exit code 1; an undetected
build system skips the prerequisite and build stages; `show_prerequisites`
and `build_with_wrapper` cannot fail; a failed scanner run yields exit
code 1; otherwise the script exits 0. -/
def runScript (cfg : RunnerConfig) (env : ToolEnv) : Int × List Stage :=
  if check_prerequisites cfg env = false then
    (1, [.checkTools, .cleanup])
  else if clone_repository env = false then
    (1, [.checkTools, .cloneRepo, .cleanup])
  else
    match detect_build_system env.workspace_files with
    | some (bs, cmd) =>
      if show_prerequisites cfg (some bs) = false then
        (1, [.checkTools, .cloneRepo, .detectStage, .cleanup])
      else if build_with_wrapper cfg env (some cmd) (some bs) = false then
        (1, [.checkTools, .cloneRepo, .detectStage, .showPrereqs, .cleanup])
      else if run_sonar_scanner env = false then
        (1, [.checkTools, .cloneRepo, .detectStage, .showPrereqs, .buildWrapper, .scannerStage,
             .cleanup])
      else
        (0, [.checkTools, .cloneRepo, .detectStage, .showPrereqs, .buildWrapper, .scannerStage,
             .cleanup])
    | none =>
      if run_sonar_scanner env = false then
        (1, [.checkTools, .cloneRepo, .detectStage, .scannerStage, .cleanup])
      else
        (0, [.checkTools, .cloneRepo, .detectStage, .scannerStage, .cleanup])

/-- The default configuration built in `_load_config` when no config file
overrides anything (host and token defaults taken with the environment
variables unset). -/
def defaultConfig : RunnerConfig where
  sonar_host_url := "http://localhost:9000"
  sonar_token := ""
  workspace_dir := "temp"
  build_wrapper_cmd := "build-wrapper-linux-x86-64"
  sonar_scanner_cmd := "sonar-scanner"
  build_prerequisites :=
    [("global", []), ("maven", []), ("gradle", []), ("cmake", []), ("make", []), ("npm", []),
     ("python", [])]

/-! ## Model of `backend/server.py` -/

/-- One entry of the server's `active_scans` dict.  Scalar dict values are
stored directly; the mutable `output` list is stored behind `outputRef`, an
index into the registry's heap, so that Python's aliasing of the list object
(shared between the dict entry and any shallow `dict.copy()`) is visible in
the model. -/
structure JobRec where
  status : String
  outputRef : Nat
  start_time : Option Nat
  end_time : Option Nat
  return_code : Option Int
deriving DecidableEq

/-- The server's shared state: the `active_scans` dict plus the heap of
live output-list objects. -/
structure Registry where
  active_scans : List (String × JobRec)
  heap : List (List String)
deriving DecidableEq

/-- Python dict assignment `d[k] = v`: overwrite in place if the key exists
(keeping its position), otherwise append a new entry. -/
def dictSet {α : Type} : List (String × α) → String → α → List (String × α)
  | [], k, v => [(k, v)]
  | (k', v') :: rest, k, v =>
    if k' = k then (k, v) :: rest else (k', v') :: dictSet rest k v

/-- Python dict lookup `d.get(k)` / `d[k]`. -/
def dictFind? {α : Type} : List (String × α) → String → Option α
  | [], _ => none
  | (k', v) :: rest, k => if k' = k then some v else dictFind? rest k

/-- The registration step of `_execute_scan` (lines 200-205): store a fresh
entry (status running, empty output, recorded start time) under the
scan id, allocating a fresh empty output list on the heap.  Plain dict
assignment: an existing entry under the same id is overwritten. -/
def registerScan (reg : Registry) (scan_id : String) (t0 : Nat) : Registry where
  active_scans :=
    dictSet reg.active_scans scan_id
      { status := "running", outputRef := reg.heap.length, start_time := some t0,
        end_time := none, return_code := none }
  heap := reg.heap ++ [[]]

/-- The streaming append of one captured line (line 225): mutate the output
list object of the entry in place through its reference; the dict itself is
not touched. -/
def appendOutput (reg : Registry) (scan_id : String) (line : String) : Registry :=
  match dictFind? reg.active_scans scan_id with
  | none => reg
  | some j =>
    { reg with heap := reg.heap.set j.outputRef ((reg.heap.getD j.outputRef []) ++ [line]) }

/-- The completion step of `_execute_scan` (lines 230-233), performed under
the lock in one critical section: set `status` to `completed` or `failed`
according to the process exit code, record the exit code, and set
`end_time`. -/
def finishScan (reg : Registry) (scan_id : String) (rc : Int) (t1 : Nat) : Registry :=
  match dictFind? reg.active_scans scan_id with
  | none => reg
  | some j =>
    { reg with
      active_scans :=
        dictSet reg.active_scans scan_id
          { j with status := if rc = 0 then "completed" else "failed", return_code := some rc,
                   end_time := some t1 } }

/-- The exception handler of `_execute_scan` (lines 239-241): set `status`
to `error` and append the error text to the output; `end_time` and
`return_code` are not touched. -/
def errorScan (reg : Registry) (scan_id : String) (msg : String) : Registry :=
  match dictFind? reg.active_scans scan_id with
  | none => reg
  | some j =>
    appendOutput
      { reg with active_scans := dictSet reg.active_scans scan_id { j with status := "error" } }
      scan_id ("Error: " ++ msg)

/-- The read performed by `_handle_scan_result` under the lock:
`active_scans[scan_id].copy()`.  A Python dict copy is shallow: the result is
the record of current scalar values together with the same output-list
reference. -/
def scan_snapshot (reg : Registry) (scan_id : String) : Option JobRec :=
  dictFind? reg.active_scans scan_id

/-- Dereference a job record's output list in a given registry state: the
line sequence an observer holding this record (for instance a snapshot)
reads through its `output` field. -/
def readOutput (reg : Registry) (j : JobRec) : List String :=
  reg.heap.getD j.outputRef []

/-- How one background execution of the scan script ends, as observed by
`_execute_scan`: either the subprocess runs to completion with the captured
output lines, an exit code and an end timestamp, or an exception is raised
(after some lines were already captured) with its message. -/
inductive ScanOutcome where
  | exited (lines : List String) (rc : Int) (tEnd : Nat)
  | raised (lines : List String) (msg : String)
deriving DecidableEq

/-- The registry states observed while the output-streaming loop of
`_execute_scan` appends the captured lines one by one: the state before any
append, then the state after each append. -/
def streamStates (reg : Registry) (scan_id : String) : List String → List Registry
  | [] => [reg]
  | line :: rest => reg :: streamStates (appendOutput reg scan_id line) scan_id rest

/-- The registry state after the whole streaming loop. -/
def streamEnd (reg : Registry) (scan_id : String) (lines : List String) : Registry :=
  lines.foldl (fun r line => appendOutput r scan_id line) reg

/-- The full sequence of registry states produced by `_execute_scan` for one
job, one state per critical section: registration, one state per streamed
output line, and the final completion (or exception-handler) update. -/
def executeScanTrace (reg : Registry) (scan_id : String) (t0 : Nat)
    (outcome : ScanOutcome) : List Registry :=
  match outcome with
  | .exited lines rc tEnd =>
    streamStates (registerScan reg scan_id t0) scan_id lines ++
      [finishScan (streamEnd (registerScan reg scan_id t0) scan_id lines) scan_id rc tEnd]
  | .raised lines msg =>
    streamStates (registerScan reg scan_id t0) scan_id lines ++
      [errorScan (streamEnd (registerScan reg scan_id t0) scan_id lines) scan_id msg]

/-- A scan submission as validated by `_handle_scan`: the three required
request fields. -/
structure ScanRequest where
  repository_name : String
  branch_name : String
  release_version : String
deriving DecidableEq

/-- The scan id generated by `_handle_scan` (line 165): repository name,
branch name and the whole-second submission timestamp rendered in decimal,
joined by underscores. -/
def scan_id_of (repo_name branch_name : String) (now : Nat) : String :=
  repo_name ++ "_" ++ branch_name ++ "_" ++ Nat.repr now

/-- The id `_handle_scan` assigns to a submission at a given second.  The
release version plays no part in it. -/
def request_scan_id (r : ScanRequest) (now : Nat) : String :=
  scan_id_of r.repository_name r.branch_name now

/-- The terminal status `_execute_scan` stores for a subprocess exit code
(line 231). -/
def server_status (rc : Int) : String :=
  if rc = 0 then "completed" else "failed"

/-- Decimal value of a digit-character list, most significant first — the
reading direction of `Nat.repr`'s output. -/
def decChars : List Char → Nat → Nat
  | [], acc => acc
  | c :: cs, acc => decChars cs (acc * 10 + (c.toNat - 48))

/-- A concrete environment in which `git` is not resolvable on the search
path while the other two required tools are. -/
def envNoGit : ToolEnv where
  available := ["sonar-scanner", "build-wrapper-linux-x86-64"]
  clone_rc := 0
  workspace_files := []
  build_rc := 0
  scanner_rc := 0

/-- A concrete environment for a Maven project whose instrumented build
exits with code 1 while everything else succeeds. -/
def envBuildFails : ToolEnv where
  available := ["git", "sonar-scanner", "build-wrapper-linux-x86-64"]
  clone_rc := 0
  workspace_files := ["pom.xml", "src"]
  build_rc := 1
  scanner_rc := 0

/-! ## Helper lemmas -/

lemma dictFind?_dictSet_self {α : Type} (d : List (String × α)) (k : String) (v : α) :
    dictFind? (dictSet d k v) k = some v := by
  induction d with
  | nil => simp [dictSet, dictFind?]
  | cons p rest ih =>
    obtain ⟨k', v'⟩ := p
    by_cases h : k' = k
    · simp [dictSet, dictFind?, h]
    · simp [dictSet, dictFind?, h, ih]

lemma appendOutput_active_scans (reg : Registry) (id line : String) :
    (appendOutput reg id line).active_scans = reg.active_scans := by
  unfold appendOutput
  cases dictFind? reg.active_scans id <;> rfl

lemma streamStates_active_scans (id : String) :
    ∀ (lines : List String) (reg : Registry), ∀ r ∈ streamStates reg id lines,
      r.active_scans = reg.active_scans := by
  intro lines
  induction lines with
  | nil => intro reg r hr; simp [streamStates] at hr; simp [hr]
  | cons line rest ih =>
    intro reg r hr
    simp only [streamStates, List.mem_cons] at hr
    rcases hr with rfl | hr
    · rfl
    · rw [ih (appendOutput reg id line) r hr, appendOutput_active_scans]

lemma streamEnd_active_scans (id : String) :
    ∀ (lines : List String) (reg : Registry),
      (streamEnd reg id lines).active_scans = reg.active_scans := by
  intro lines
  induction lines with
  | nil => intro reg; rfl
  | cons line rest ih =>
    intro reg
    simp only [streamEnd, List.foldl_cons]
    rw [show List.foldl (fun r line => appendOutput r id line) (appendOutput reg id line) rest
          = streamEnd (appendOutput reg id line) id rest from rfl,
        ih, appendOutput_active_scans]

lemma getLastD_concat' {α : Type} (l : List α) (a d : α) : (l ++ [a]).getLastD d = a := by
  simp [List.getLastD_eq_getLast?, List.getLast?_concat]

lemma snapshot_registerScan (reg : Registry) (id : String) (t0 : Nat) :
    scan_snapshot (registerScan reg id t0) id =
      some ⟨"running", reg.heap.length, some t0, none, none⟩ := by
  unfold scan_snapshot registerScan
  exact dictFind?_dictSet_self _ _ _

lemma snapshot_streamStates (reg : Registry) (id : String) (t0 : Nat) (lines : List String) :
    ∀ r ∈ streamStates (registerScan reg id t0) id lines,
      scan_snapshot r id = some ⟨"running", reg.heap.length, some t0, none, none⟩ := by
  intro r hr
  have h1 := streamStates_active_scans id lines (registerScan reg id t0) r hr
  unfold scan_snapshot
  rw [h1]
  exact snapshot_registerScan reg id t0

lemma snapshot_finish_of_running (S : Registry) (id : String) (j : JobRec) (rc : Int) (t1 : Nat)
    (h : dictFind? S.active_scans id = some j) :
    scan_snapshot (finishScan S id rc t1) id =
      some { j with status := if rc = 0 then "completed" else "failed",
                    return_code := some rc, end_time := some t1 } := by
  unfold finishScan
  rw [h]
  unfold scan_snapshot
  exact dictFind?_dictSet_self _ _ _

lemma snapshot_error_of_running (S : Registry) (id : String) (j : JobRec) (msg : String)
    (h : dictFind? S.active_scans id = some j) :
    scan_snapshot (errorScan S id msg) id = some { j with status := "error" } := by
  unfold errorScan
  rw [h]
  unfold scan_snapshot
  rw [appendOutput_active_scans]
  exact dictFind?_dictSet_self _ _ _

lemma streamEnd_snapshot (reg : Registry) (id : String) (t0 : Nat) (lines : List String) :
    dictFind? (streamEnd (registerScan reg id t0) id lines).active_scans id =
      some ⟨"running", reg.heap.length, some t0, none, none⟩ := by
  have h := streamEnd_active_scans id lines (registerScan reg id t0)
  rw [show dictFind? (streamEnd (registerScan reg id t0) id lines).active_scans id
        = scan_snapshot (streamEnd (registerScan reg id t0) id lines) id from rfl]
  unfold scan_snapshot
  rw [h]
  exact snapshot_registerScan reg id t0

lemma decChars_append_digit (l : List Char) (c : Char) :
    ∀ acc, decChars (l ++ [c]) acc = (decChars l acc) * 10 + (c.toNat - 48) := by
  induction l with
  | nil => intro acc; simp [decChars]
  | cons x xs ih => intro acc; simp [decChars, ih]

lemma digitChar_toNat_eq (m : Nat) (h : m < 10) : (Nat.digitChar m).toNat = 48 + m := by
  interval_cases m <;> decide

lemma toDigitsCore_val (fuel : Nat) : ∀ (n : Nat) (acc : List Char), n < fuel →
    ∃ ds : List Char, Nat.toDigitsCore 10 fuel n acc = ds ++ acc ∧ decChars ds 0 = n := by
  induction fuel with
  | zero => intro n acc h; omega
  | succ fuel ih =>
    intro n acc hn
    by_cases h10 : n / 10 = 0
    · refine ⟨[Nat.digitChar (n % 10)], ?_, ?_⟩
      · simp [Nat.toDigitsCore, h10]
      · have hlt : n < 10 := by omega
        have hmod : n % 10 = n := Nat.mod_eq_of_lt hlt
        show decChars [Nat.digitChar (n % 10)] 0 = n
        simp only [decChars]
        rw [hmod, digitChar_toNat_eq n hlt]
        omega
    · have hge : 10 ≤ n := by
        by_contra hc
        exact h10 (Nat.div_eq_of_lt (by omega))
      obtain ⟨ds, hds, hval⟩ :=
        ih (n / 10) (Nat.digitChar (n % 10) :: acc) (by omega)
      refine ⟨ds ++ [Nat.digitChar (n % 10)], ?_, ?_⟩
      · rw [show Nat.toDigitsCore 10 (fuel + 1) n acc
              = Nat.toDigitsCore 10 fuel (n / 10) (Nat.digitChar (n % 10) :: acc) by
            simp [Nat.toDigitsCore, h10]]
        rw [hds, List.append_assoc]
        rfl
      · rw [decChars_append_digit, hval,
          digitChar_toNat_eq (n % 10) (Nat.mod_lt _ (by omega))]
        omega

lemma natRepr_injective : Function.Injective Nat.repr := by
  intro a b h
  unfold Nat.repr Nat.toDigits at h
  obtain ⟨da, ha, hva⟩ := toDigitsCore_val (a + 1) a [] (Nat.lt_succ_self a)
  obtain ⟨db, hb, hvb⟩ := toDigitsCore_val (b + 1) b [] (Nat.lt_succ_self b)
  rw [ha, hb, List.append_nil, List.append_nil] at h
  have hd : da = db := by
    have := congrArg String.data h
    simpa [List.asString] using this
  rw [← hva, ← hvb, hd]

lemma pySplitSlash_ne_nil (l : List Char) : pySplitSlash l ≠ [] := by
  cases l with
  | nil => simp [pySplitSlash]
  | cons c rest =>
    by_cases h : c = '/'
    · simp [pySplitSlash, h]
    · simp only [pySplitSlash, if_neg h]
      cases pySplitSlash rest <;> simp

lemma pySplitSlash_noslash (p : List Char) (h : ∀ c ∈ p, c ≠ '/') :
    pySplitSlash p = [p] := by
  induction p with
  | nil => rfl
  | cons c rest ih =>
    have hc : c ≠ '/' := h c (List.mem_cons_self c rest)
    have hrest := ih (fun x hx => h x (List.mem_cons_of_mem c hx))
    simp [pySplitSlash, hc, hrest]

lemma pySplitSlash_length_append (p : List Char) (hp : ∀ c ∈ p, c ≠ '/') :
    ∀ (l : List Char), (pySplitSlash (l ++ p)).length = (pySplitSlash l).length := by
  intro l
  induction l with
  | nil => simp [pySplitSlash, pySplitSlash_noslash p hp]
  | cons c rest ih =>
    have e1 : (c :: rest) ++ p = c :: (rest ++ p) := rfl
    by_cases hc : c = '/'
    · have e2 : pySplitSlash (c :: (rest ++ p)) = [] :: pySplitSlash (rest ++ p) := by
        subst hc; simp [pySplitSlash]
      have e3 : pySplitSlash (c :: rest) = [] :: pySplitSlash rest := by
        subst hc; simp [pySplitSlash]
      rw [e1, e2, e3, List.length_cons, List.length_cons, ih]
    · obtain ⟨u, us, hu⟩ : ∃ u us, pySplitSlash (rest ++ p) = u :: us := by
        cases hx : pySplitSlash (rest ++ p) with
        | nil => exact absurd hx (pySplitSlash_ne_nil _)
        | cons u us => exact ⟨u, us, rfl⟩
      obtain ⟨s, ss, hs⟩ : ∃ s ss, pySplitSlash rest = s :: ss := by
        cases hx : pySplitSlash rest with
        | nil => exact absurd hx (pySplitSlash_ne_nil _)
        | cons s ss => exact ⟨s, ss, rfl⟩
      have e2 : pySplitSlash (c :: (rest ++ p)) = (c :: u) :: us := by
        simp [pySplitSlash, hc, hu]
      have e3 : pySplitSlash (c :: rest) = (c :: s) :: ss := by
        simp [pySplitSlash, hc, hs]
      have hlen : us.length = ss.length := by
        have := ih; rw [hu, hs] at this; simpa using this
      rw [e1, e2, e3, List.length_cons, List.length_cons, hlen]

lemma lastSeg_cons_cons (a b : List Char) (t : List (List Char)) :
    lastSeg (a :: b :: t) = lastSeg (b :: t) := rfl

lemma pySplitSlash_lastSeg_append (p : List Char) (hp : ∀ c ∈ p, c ≠ '/') :
    ∀ (l : List Char),
      lastSeg (pySplitSlash (l ++ p)) = lastSeg (pySplitSlash l) ++ p := by
  intro l
  induction l with
  | nil => simp [pySplitSlash, pySplitSlash_noslash p hp, lastSeg]
  | cons c rest ih =>
    have e1 : (c :: rest) ++ p = c :: (rest ++ p) := rfl
    obtain ⟨u, us, hu⟩ : ∃ u us, pySplitSlash (rest ++ p) = u :: us := by
      cases hx : pySplitSlash (rest ++ p) with
      | nil => exact absurd hx (pySplitSlash_ne_nil _)
      | cons u us => exact ⟨u, us, rfl⟩
    obtain ⟨s, ss, hs⟩ : ∃ s ss, pySplitSlash rest = s :: ss := by
      cases hx : pySplitSlash rest with
      | nil => exact absurd hx (pySplitSlash_ne_nil _)
      | cons s ss => exact ⟨s, ss, rfl⟩
    have hlen : us.length = ss.length := by
      have := pySplitSlash_length_append p hp rest
      rw [hu, hs] at this; simpa using this
    by_cases hc : c = '/'
    · have e2 : pySplitSlash (c :: (rest ++ p)) = [] :: pySplitSlash (rest ++ p) := by
        subst hc; simp [pySplitSlash]
      have e3 : pySplitSlash (c :: rest) = [] :: pySplitSlash rest := by
        subst hc; simp [pySplitSlash]
      rw [e1, e2, e3, hu, hs, lastSeg_cons_cons, lastSeg_cons_cons, ← hu, ← hs]
      exact ih
    · have e2 : pySplitSlash (c :: (rest ++ p)) = (c :: u) :: us := by
        simp [pySplitSlash, hc, hu]
      have e3 : pySplitSlash (c :: rest) = (c :: s) :: ss := by
        simp [pySplitSlash, hc, hs]
      rw [e1, e2, e3]
      cases ss with
      | nil =>
        have hus : us = [] := List.length_eq_zero.mp (by simpa using hlen)
        subst hus
        have hih : u = s ++ p := by
          have := ih; rw [hu, hs] at this; simpa [lastSeg] using this
        simp [lastSeg, hih]
      | cons s2 ss2 =>
        obtain ⟨u2, us2, hu2⟩ : ∃ u2 us2, us = u2 :: us2 := by
          cases us with
          | nil => simp at hlen
          | cons u2 us2 => exact ⟨u2, us2, rfl⟩
        subst hu2
        rw [lastSeg_cons_cons, lastSeg_cons_cons]
        have := ih
        rw [hu, hs, lastSeg_cons_cons, lastSeg_cons_cons] at this
        exact this

lemma pyReplaceGitAux_append_git :
    ∀ (fuel : Nat) (l : List Char), l.length ≤ fuel →
      pyReplaceGitAux (fuel + 4) (l ++ ['.', 'g', 'i', 't']) = pyReplaceGitAux fuel l := by
  intro fuel
  induction fuel with
  | zero =>
    intro l hl
    have : l = [] := List.length_eq_zero.mp (by omega)
    subst this
    decide
  | succ fuel ih =>
    intro l hl
    cases l with
    | nil =>
      show pyReplaceGitAux (fuel + 5) ['.', 'g', 'i', 't'] = pyReplaceGitAux (fuel + 1) []
      rw [show fuel + 5 = (fuel + 4) + 1 from rfl]
      simp only [pyReplaceGitAux]
      norm_num
    | cons c rest =>
      have e1 : (c :: rest) ++ ['.', 'g', 'i', 't'] = c :: (rest ++ ['.', 'g', 'i', 't']) := rfl
      rw [e1]
      rw [show (fuel + 1) + 4 = (fuel + 4) + 1 from rfl]
      by_cases hlong : 3 ≤ rest.length
      · have htake : (rest ++ ['.', 'g', 'i', 't']).take 3 = rest.take 3 :=
          List.take_append_of_le_length hlong
        have hdrop : (rest ++ ['.', 'g', 'i', 't']).drop 3 = rest.drop 3 ++ ['.', 'g', 'i', 't'] :=
          List.drop_append_of_le_length hlong
        by_cases hcond : c = '.' ∧ rest.take 3 = ['g', 'i', 't']
        · simp only [pyReplaceGitAux, htake, hdrop, if_pos hcond]
          exact ih (rest.drop 3)
            (by simp only [List.length_cons] at hl; simp [List.length_drop]; omega)
        · simp only [pyReplaceGitAux, htake, if_neg hcond]
          rw [ih rest (by simp at hl; omega)]
      · have hcond2 : ¬(c = '.' ∧ rest.take 3 = ['g', 'i', 't']) := by
          rintro ⟨-, htk⟩
          have : (rest.take 3).length = 3 := by rw [htk]; rfl
          simp [List.length_take] at this
          omega
        have hcond1 : ¬(c = '.' ∧ (rest ++ ['.', 'g', 'i', 't']).take 3 = ['g', 'i', 't']) := by
          rintro ⟨-, htk⟩
          interval_cases hr : rest.length
          · obtain rfl : rest = [] := List.length_eq_zero.mp hr
            simp at htk
          · obtain ⟨a, rfl⟩ : ∃ a, rest = [a] := by
              cases rest with
              | nil => simp at hr
              | cons a t =>
                cases t with
                | nil => exact ⟨a, rfl⟩
                | cons b t2 => simp at hr
            simp at htk
          · obtain ⟨a, b, rfl⟩ : ∃ a b, rest = [a, b] := by
              cases rest with
              | nil => simp at hr
              | cons a t =>
                cases t with
                | nil => simp at hr
                | cons b t2 =>
                  cases t2 with
                  | nil => exact ⟨a, b, rfl⟩
                  | cons d t3 => simp at hr
            simp at htk
        simp only [pyReplaceGitAux, if_neg hcond1, if_neg hcond2]
        rw [ih rest (by simp at hl; omega)]

lemma pyReplaceGit_append_git (l : List Char) :
    pyReplaceGit (l ++ ['.', 'g', 'i', 't']) = pyReplaceGit l := by
  unfold pyReplaceGit
  rw [show (l ++ ['.', 'g', 'i', 't']).length = l.length + 4 by simp]
  exact pyReplaceGitAux_append_git l.length l (le_refl _)

/-! ## Claims -/

/-- C1, counterexample to the claim as stated: immediately on creation — the
first registry state `_execute_scan` produces — the job is already in state
`running`; no observable state of the whole execution trace is ever
`queued`. -/
theorem job_created_running_not_queued_cex :
    scan_snapshot ((executeScanTrace ⟨[], []⟩ "repo_main_1700000000" 1700000000
        (.exited ["line"] 0 1700000007)).headD (registerScan ⟨[], []⟩ "x" 0))
        "repo_main_1700000000" =
      some ⟨"running", 0, some 1700000000, none, none⟩ ∧
    ((executeScanTrace ⟨[], []⟩ "repo_main_1700000000" 1700000000
        (.exited ["line"] 0 1700000007)).all fun r =>
      decide ((scan_snapshot r "repo_main_1700000000").map JobRec.status ≠ some "queued")) = true ∧
    "running" ≠ "queued" := by
  refine ⟨by decide, by decide, by decide⟩

/-- C1 (amended): a job enters the registry directly in state `running` (no
`queued` state is ever observable), stays in `running` for every state but
the last one of its execution trace, and the final state is exactly one of
the terminal states `completed`, `failed` or `error`; no observable state is
`queued`. -/
theorem scan_job_state_machine (reg : Registry) (id : String) (t0 : Nat)
    (outcome : ScanOutcome) :
    (∀ r ∈ (executeScanTrace reg id t0 outcome).dropLast, ∀ j, scan_snapshot r id = some j →
        j.status = "running") ∧
    (∀ j, scan_snapshot ((executeScanTrace reg id t0 outcome).getLastD (registerScan reg id t0)) id
        = some j → (j.status = "completed" ∨ j.status = "failed" ∨ j.status = "error")) ∧
    (scan_snapshot ((executeScanTrace reg id t0 outcome).getLastD (registerScan reg id t0))
        id).isSome = true ∧
    (∀ r ∈ executeScanTrace reg id t0 outcome, ∀ j, scan_snapshot r id = some j →
        j.status ≠ "queued") := by
  have hstream := snapshot_streamStates reg id t0
  cases outcome with
  | exited lines rc tEnd =>
    refine ⟨?_, ?_, ?_, ?_⟩
    · intro r hr j hj
      rw [executeScanTrace, List.dropLast_concat] at hr
      rw [hstream lines r hr] at hj
      cases hj
      rfl
    · intro j hj
      rw [executeScanTrace, getLastD_concat'] at hj
      rw [snapshot_finish_of_running _ _ _ rc tEnd (streamEnd_snapshot reg id t0 lines)] at hj
      cases hj
      by_cases h0 : rc = 0 <;> simp [h0]
    · rw [executeScanTrace, getLastD_concat',
        snapshot_finish_of_running _ _ _ rc tEnd (streamEnd_snapshot reg id t0 lines)]
      rfl
    · intro r hr j hj
      rw [executeScanTrace, List.mem_append] at hr
      rcases hr with hr | hr
      · rw [hstream lines r hr] at hj
        cases hj
        simp
      · simp only [List.mem_singleton] at hr
        subst hr
        rw [snapshot_finish_of_running _ _ _ rc tEnd (streamEnd_snapshot reg id t0 lines)] at hj
        cases hj
        by_cases h0 : rc = 0 <;> simp [h0]
  | raised lines msg =>
    refine ⟨?_, ?_, ?_, ?_⟩
    · intro r hr j hj
      rw [executeScanTrace, List.dropLast_concat] at hr
      rw [hstream lines r hr] at hj
      cases hj
      rfl
    · intro j hj
      rw [executeScanTrace, getLastD_concat'] at hj
      rw [snapshot_error_of_running _ _ _ msg (streamEnd_snapshot reg id t0 lines)] at hj
      cases hj
      simp
    · rw [executeScanTrace, getLastD_concat',
        snapshot_error_of_running _ _ _ msg (streamEnd_snapshot reg id t0 lines)]
      rfl
    · intro r hr j hj
      rw [executeScanTrace, List.mem_append] at hr
      rcases hr with hr | hr
      · rw [hstream lines r hr] at hj
        cases hj
        simp
      · simp only [List.mem_singleton] at hr
        subst hr
        rw [snapshot_error_of_running _ _ _ msg (streamEnd_snapshot reg id t0 lines)] at hj
        cases hj
        simp

/-- C1 witness: the state-machine theorem applied to a concrete job. -/
theorem scan_job_state_machine_witness :
    JobRec.status ⟨"running", 0, some 5, none, none⟩ ≠ "queued" :=
  (scan_job_state_machine ⟨[], []⟩ "job" 5 (.exited ["a"] 0 9)).2.2.2
    (registerScan ⟨[], []⟩ "job" 5) (by decide) ⟨"running", 0, some 5, none, none⟩ (by decide)

/-- C2, counterexample to the claim as stated: when the scan thread raises an
exception, the job ends in the terminal state `error` with `end_time` never
set, so end_time is not set for every terminal state. -/
theorem end_time_missing_in_error_cex :
    scan_snapshot ((executeScanTrace ⟨[], []⟩ "s" 0 (.raised [] "boom")).getLastD
        (registerScan ⟨[], []⟩ "s" 0)) "s" = some ⟨"error", 0, some 0, none, none⟩ ∧
    ¬ ((JobRec.end_time ⟨"error", 0, some 0, none, none⟩).isSome = true ↔
        (JobRec.status ⟨"error", 0, some 0, none, none⟩ = "completed" ∨
         JobRec.status ⟨"error", 0, some 0, none, none⟩ = "failed" ∨
         JobRec.status ⟨"error", 0, some 0, none, none⟩ = "error")) := by
  refine ⟨by decide, by decide⟩

/-- C2 (amended): at every observable point of a job's execution, `end_time`
is set if and only if the state is `completed` or `failed` (not in `error`),
and likewise `return_code` is present if and only if the state is `completed`
or `failed`; in state `error` both are absent. -/
theorem job_terminal_field_invariant (reg : Registry) (id : String) (t0 : Nat)
    (outcome : ScanOutcome) :
    ∀ r ∈ executeScanTrace reg id t0 outcome, ∀ j, scan_snapshot r id = some j →
      ((j.end_time.isSome = true ↔ (j.status = "completed" ∨ j.status = "failed")) ∧
       (j.return_code.isSome = true ↔ (j.status = "completed" ∨ j.status = "failed")) ∧
       (j.status = "error" → j.end_time = none ∧ j.return_code = none)) := by
  have hstream := snapshot_streamStates reg id t0
  intro r hr j hj
  cases outcome with
  | exited lines rc tEnd =>
    rw [executeScanTrace, List.mem_append] at hr
    rcases hr with hr | hr
    · rw [hstream lines r hr] at hj
      cases hj
      refine ⟨by simp, by simp, by simp⟩
    · simp only [List.mem_singleton] at hr
      subst hr
      rw [snapshot_finish_of_running _ _ _ rc tEnd (streamEnd_snapshot reg id t0 lines)] at hj
      cases hj
      by_cases h0 : rc = 0 <;> simp [h0]
  | raised lines msg =>
    rw [executeScanTrace, List.mem_append] at hr
    rcases hr with hr | hr
    · rw [hstream lines r hr] at hj
      cases hj
      refine ⟨by simp, by simp, by simp⟩
    · simp only [List.mem_singleton] at hr
      subst hr
      rw [snapshot_error_of_running _ _ _ msg (streamEnd_snapshot reg id t0 lines)] at hj
      cases hj
      simp

/-- C2 witness: the field invariant applied to the final state of a concrete
successful job. -/
theorem job_terminal_field_invariant_witness :
    ((JobRec.end_time ⟨"completed", 0, some 0, some 9, some 0⟩).isSome = true ↔
      (JobRec.status ⟨"completed", 0, some 0, some 9, some 0⟩ = "completed" ∨
       JobRec.status ⟨"completed", 0, some 0, some 9, some 0⟩ = "failed")) ∧
    ((JobRec.return_code ⟨"completed", 0, some 0, some 9, some 0⟩).isSome = true ↔
      (JobRec.status ⟨"completed", 0, some 0, some 9, some 0⟩ = "completed" ∨
       JobRec.status ⟨"completed", 0, some 0, some 9, some 0⟩ = "failed")) ∧
    (JobRec.status ⟨"completed", 0, some 0, some 9, some 0⟩ = "error" →
      JobRec.end_time ⟨"completed", 0, some 0, some 9, some 0⟩ = none ∧
      JobRec.return_code ⟨"completed", 0, some 0, some 9, some 0⟩ = none) :=
  job_terminal_field_invariant ⟨[], []⟩ "s" 0 (.exited ["a"] 0 9)
    ⟨[("s", ⟨"completed", 0, some 0, some 9, some 0⟩)], [["a"]]⟩ (by decide)
    ⟨"completed", 0, some 0, some 9, some 0⟩ (by decide)

/-- C3, counterexample to the claim as stated: `_handle_scan_result` returns
a shallow copy, so the output sequence reachable through a snapshot changes
when the executor subsequently appends a line to the registry-owned list. -/
theorem snapshot_output_shared_cex :
    scan_snapshot (registerScan ⟨[], []⟩ "s" 0) "s" = some ⟨"running", 0, some 0, none, none⟩ ∧
    readOutput (registerScan ⟨[], []⟩ "s" 0) ⟨"running", 0, some 0, none, none⟩ = [] ∧
    readOutput (appendOutput (registerScan ⟨[], []⟩ "s" 0) "s" "cloning")
        ⟨"running", 0, some 0, none, none⟩ = ["cloning"] ∧
    (["cloning"] : List String) ≠ [] := by
  refine ⟨by decide, by decide, by decide, by decide⟩

/-- C3 (amended): the status-query view is a shallow copy — the scalar
fields of the dict entry are decoupled from later mutation (an executor
append never touches the dict, only the heap), but the output field of a
snapshot aliases the registry-owned list object, so an append performed by
the executor after the snapshot was taken is visible through the
snapshot. -/
theorem snapshot_shallow_copy_aliasing (reg : Registry) (id : String) (j : JobRec)
    (line : String) (hsnap : scan_snapshot reg id = some j)
    (href : j.outputRef < reg.heap.length) :
    readOutput (appendOutput reg id line) j = readOutput reg j ++ [line] ∧
    (appendOutput reg id line).active_scans = reg.active_scans := by
  constructor
  · unfold appendOutput
    rw [show dictFind? reg.active_scans id = some j from hsnap]
    unfold readOutput
    simp only []
    rw [List.getD_eq_getElem?_getD, List.getD_eq_getElem?_getD, List.getElem?_set_self]
    · simp [List.getD_eq_getElem?_getD]
    · exact href
  · exact appendOutput_active_scans reg id line

/-- C3 witness: the aliasing equation at a concrete registered job. -/
theorem snapshot_shallow_copy_aliasing_witness :
    readOutput (appendOutput (registerScan ⟨[], []⟩ "w" 0) "w" "x")
        ⟨"running", 0, some 0, none, none⟩ =
      readOutput (registerScan ⟨[], []⟩ "w" 0) ⟨"running", 0, some 0, none, none⟩ ++ ["x"] ∧
    (appendOutput (registerScan ⟨[], []⟩ "w" 0) "w" "x").active_scans =
      (registerScan ⟨[], []⟩ "w" 0).active_scans :=
  snapshot_shallow_copy_aliasing (registerScan ⟨[], []⟩ "w" 0) "w"
    ⟨"running", 0, some 0, none, none⟩ "x" (by decide) (by decide)

/-- C4, counterexample to the claim as stated: two distinct valid
submissions (same repository and branch, different release versions)
submitted in the same whole second receive the same scan id. -/
theorem scan_id_collision_cex :
    (⟨"team/app", "main", "1.0"⟩ : ScanRequest) ≠ ⟨"team/app", "main", "2.0"⟩ ∧
    request_scan_id ⟨"team/app", "main", "1.0"⟩ 1700000000 =
      request_scan_id ⟨"team/app", "main", "2.0"⟩ 1700000000 := by
  refine ⟨by decide, rfl⟩

/-- C4 (amended): for a fixed repository and branch the generated scan ids
agree exactly when the whole-second submission timestamps agree — so ids are
distinct across seconds, but two submissions of the same repository and
branch within one second (in particular two concurrent ones) collide. -/
theorem scan_id_distinct_iff_time (r b : String) (t1 t2 : Nat) :
    scan_id_of r b t1 = scan_id_of r b t2 ↔ t1 = t2 := by
  constructor
  · intro h
    unfold scan_id_of at h
    have hdata := congrArg String.data h
    have h4 : (Nat.repr t1).data = (Nat.repr t2).data := by
      simpa [String.data_append] using hdata
    exact natRepr_injective (String.ext h4)
  · intro h; rw [h]

/-- C5, counterexample to the claim as stated: with `git` unresolvable the
script exits 1, so `_execute_scan` records the terminal state `failed`
(with exit code 1), not `error`. -/
theorem missing_tool_not_error_cex :
    ("git" ∈ envNoGit.available → False) ∧
    runScript defaultConfig envNoGit = (1, [.checkTools, .cleanup]) ∧
    scan_snapshot ((executeScanTrace ⟨[], []⟩ "s" 0
        (.exited ["Error: Missing required tools: Git"]
          (runScript defaultConfig envNoGit).1 9)).getLastD
        (registerScan ⟨[], []⟩ "s" 0)) "s" =
      some ⟨"failed", 0, some 0, some 9, some 1⟩ ∧
    ("failed" : String) ≠ "error" := by
  refine ⟨by decide, by decide, by decide, by decide⟩

/-- C5 (amended): when a required external tool is unresolvable the scan
script exits with code 1, and the server therefore records the terminal
state `failed` (with exit code 1), never `error` — the `error` state is
reserved for exceptions inside `_execute_scan` itself. -/
theorem missing_tool_job_failed (cfg : RunnerConfig) (env : ToolEnv)
    (h : check_prerequisites cfg env = false) :
    (runScript cfg env).1 = 1 ∧ server_status (runScript cfg env).1 = "failed" ∧
    server_status (runScript cfg env).1 ≠ "error" := by
  simp [runScript, h, server_status]

/-- C5 witness: the amended theorem at the concrete environment missing
`git`. -/
theorem missing_tool_job_failed_witness :
    (runScript defaultConfig envNoGit).1 = 1 ∧
    server_status (runScript defaultConfig envNoGit).1 = "failed" ∧
    server_status (runScript defaultConfig envNoGit).1 ≠ "error" :=
  missing_tool_job_failed defaultConfig envNoGit (by decide)

/-- C6, counterexample to the claim as stated: registering a job under an
identifier that already exists (here a completed job) silently overwrites
the existing entry with a fresh running record instead of failing. -/
theorem register_duplicate_overwrites_cex :
    scan_snapshot (finishScan (registerScan ⟨[], []⟩ "s" 0) "s" 0 5) "s" =
      some ⟨"completed", 0, some 0, some 5, some 0⟩ ∧
    scan_snapshot (registerScan (finishScan (registerScan ⟨[], []⟩ "s" 0) "s" 0 5) "s" 9) "s" =
      some ⟨"running", 1, some 9, none, none⟩ ∧
    (⟨"running", 1, some 9, none, none⟩ : JobRec) ≠ ⟨"completed", 0, some 0, some 5, some 0⟩ := by
  refine ⟨by decide, by decide, by decide⟩

/-- C6 (amended): registration is a plain dict assignment: for every prior
registry state — whether or not the identifier is already present — the
entry afterwards is a fresh running record with a newly allocated empty
output list; no duplicate-identifier error exists and an existing entry is
silently overwritten. -/
theorem register_always_inserts_fresh (reg : Registry) (id : String) (t0 : Nat) :
    scan_snapshot (registerScan reg id t0) id =
      some ⟨"running", reg.heap.length, some t0, none, none⟩ ∧
    (registerScan reg id t0).heap = reg.heap ++ [[]] :=
  ⟨snapshot_registerScan reg id t0, rfl⟩

/-- C7 (confirmed): a non-zero instrumented-build exit code is not fatal:
whenever the tool check, the clone and the scanner succeed and a build
system was detected, the analysis stage still runs and the job completes
with exit code 0, regardless of the build exit code. -/
theorem build_failure_still_scans (cfg : RunnerConfig) (env : ToolEnv) (bs cmd : String)
    (htools : check_prerequisites cfg env = true)
    (hclone : env.clone_rc = 0)
    (hdet : detect_build_system env.workspace_files = some (bs, cmd))
    (_hbuild : env.build_rc ≠ 0)
    (hscan : env.scanner_rc = 0) :
    runScript cfg env =
      (0, [.checkTools, .cloneRepo, .detectStage, .showPrereqs, .buildWrapper, .scannerStage,
           .cleanup]) ∧
    Stage.scannerStage ∈ (runScript cfg env).2 ∧
    Stage.buildWrapper ∈ (runScript cfg env).2 ∧
    server_status (runScript cfg env).1 = "completed" := by
  have h1 : runScript cfg env =
      (0, [.checkTools, .cloneRepo, .detectStage, .showPrereqs, .buildWrapper, .scannerStage,
           .cleanup]) := by
    simp [runScript, htools, clone_repository, hclone, hdet, show_prerequisites,
      build_with_wrapper, run_sonar_scanner, hscan]
  refine ⟨h1, ?_, ?_, ?_⟩ <;> rw [h1] <;> simp [server_status]

/-- C7 witness: the partial-failure continuation at a concrete Maven
project whose build exits 1. -/
theorem build_failure_still_scans_witness :
    runScript defaultConfig envBuildFails =
      (0, [.checkTools, .cloneRepo, .detectStage, .showPrereqs, .buildWrapper, .scannerStage,
           .cleanup]) ∧
    Stage.scannerStage ∈ (runScript defaultConfig envBuildFails).2 ∧
    Stage.buildWrapper ∈ (runScript defaultConfig envBuildFails).2 ∧
    server_status (runScript defaultConfig envBuildFails).1 = "completed" :=
  build_failure_still_scans defaultConfig envBuildFails "maven" "mvn clean install"
    (by decide) (by decide) (by decide) (by decide) (by decide)

/-- C8 (confirmed): build-system detection checks the marker files in the
fixed priority order Maven, Gradle (two marker spellings), CMake, Makefile,
Node manifest, Python setup script; it returns the kind and canonical
default build command of the first marker present, and none when no marker
is present. -/
theorem detect_build_system_priority (fs : List String) :
    ("pom.xml" ∈ fs → detect_build_system fs = some ("maven", "mvn clean install")) ∧
    ("pom.xml" ∉ fs → "build.gradle" ∈ fs →
      detect_build_system fs = some ("gradle", "./gradlew build")) ∧
    ("pom.xml" ∉ fs → "build.gradle" ∉ fs → "build.gradle.kts" ∈ fs →
      detect_build_system fs = some ("gradle", "./gradlew build")) ∧
    ("pom.xml" ∉ fs → "build.gradle" ∉ fs → "build.gradle.kts" ∉ fs → "CMakeLists.txt" ∈ fs →
      detect_build_system fs = some ("cmake", "cmake . && make")) ∧
    ("pom.xml" ∉ fs → "build.gradle" ∉ fs → "build.gradle.kts" ∉ fs → "CMakeLists.txt" ∉ fs →
      "Makefile" ∈ fs → detect_build_system fs = some ("make", "make")) ∧
    ("pom.xml" ∉ fs → "build.gradle" ∉ fs → "build.gradle.kts" ∉ fs → "CMakeLists.txt" ∉ fs →
      "Makefile" ∉ fs → "package.json" ∈ fs →
      detect_build_system fs = some ("npm", "npm install && npm run build")) ∧
    ("pom.xml" ∉ fs → "build.gradle" ∉ fs → "build.gradle.kts" ∉ fs → "CMakeLists.txt" ∉ fs →
      "Makefile" ∉ fs → "package.json" ∉ fs → "setup.py" ∈ fs →
      detect_build_system fs = some ("python", "python setup.py build")) ∧
    ("pom.xml" ∉ fs → "build.gradle" ∉ fs → "build.gradle.kts" ∉ fs → "CMakeLists.txt" ∉ fs →
      "Makefile" ∉ fs → "package.json" ∉ fs → "setup.py" ∉ fs →
      detect_build_system fs = none) := by
  refine ⟨?_, ?_, ?_, ?_, ?_, ?_, ?_, ?_⟩ <;>
    intros <;> simp_all [detect_build_system, build_files, List.findSome?_cons]

/-- C8 witness: a workspace with only a Gradle marker detects as Gradle. -/
theorem detect_build_system_priority_witness :
    detect_build_system ["build.gradle", "src"] = some ("gradle", "./gradlew build") :=
  (detect_build_system_priority ["build.gradle", "src"]).2.1 (by decide) (by decide)

/-- C9 (confirmed): for every configuration the resolved prerequisite list
is the global commands followed by the kind-specific commands in configured
order (just the global ones when no build system was detected); both parts
empty yields the empty list; and the concrete example configuration with one
global and one Maven command resolves to exactly those two commands in
order. -/
theorem resolved_prerequisites_spec :
    (∀ (cfg : RunnerConfig) (bs : String),
      resolved_prerequisites cfg (some bs) =
        dictGetL cfg.build_prerequisites "global" ++ dictGetL cfg.build_prerequisites bs) ∧
    (∀ (cfg : RunnerConfig), resolved_prerequisites cfg none =
        dictGetL cfg.build_prerequisites "global") ∧
    (∀ (g m : List String),
      resolved_prerequisites
        { defaultConfig with build_prerequisites :=
            [("global", g), ("maven", m), ("gradle", []), ("cmake", []), ("make", []),
             ("npm", []), ("python", [])] } (some "maven") = g ++ m) ∧
    resolved_prerequisites
        { defaultConfig with build_prerequisites :=
            [("global", []), ("maven", []), ("gradle", []), ("cmake", []), ("make", []),
             ("npm", []), ("python", [])] } (some "maven") = [] ∧
    resolved_prerequisites
        { defaultConfig with build_prerequisites :=
            [("global", ["export X=1"]), ("maven", ["echo maven"])] } (some "maven") =
      ["export X=1", "echo maven"] := by
  refine ⟨?_, ?_, ?_, by decide, by decide⟩
  · intro cfg bs; rfl
  · intro cfg; simp [resolved_prerequisites]
  · intro g m
    simp [resolved_prerequisites, dictGetL, List.find?_cons]

/-- C10, counterexample to the claim as stated: an interior `.git` is not
passed through unchanged — the code removes every occurrence of `.git` from
the base name, not only a trailing suffix, diverging from the
suffix-stripping reading of the specification. -/
theorem project_key_interior_git_cex :
    sonar_project_key "team/my.gitrepo" = "myrepo" ∧
    spec_project_key "team/my.gitrepo" = "my.gitrepo" ∧
    sonar_project_key "team/my.gitrepo" ≠ spec_project_key "team/my.gitrepo" := by
  refine ⟨by decide, by decide, by decide⟩

/-- C10 (amended): the project identity is the repository's base name with
every occurrence of `.git` removed; in particular a trailing `.git` suffix
is always stripped — appending `.git` to any repository name never changes
the generated project key — but interior `.git` substrings are removed as
well rather than passed through. -/
theorem project_key_strips_trailing_git (repo : String) :
    sonar_project_key (List.asString (repo.data ++ ['.', 'g', 'i', 't'])) =
      sonar_project_key repo := by
  unfold sonar_project_key
  have hd : (List.asString (repo.data ++ ['.', 'g', 'i', 't'])).data =
      repo.data ++ ['.', 'g', 'i', 't'] := rfl
  rw [hd, pySplitSlash_lastSeg_append ['.', 'g', 'i', 't'] (by decide),
    pyReplaceGit_append_git]
